import Mathlib

/-!
Verification of the `institutionalized` repository (Go CLI that generates
commit messages and PR content via LLM backends) against its
natural-language specification.

The Go code is shallowly embedded:

* Go strings are Lean `String`s; the string primitives the code uses
  (`strings.TrimSpace`, `strings.Split(s, "\n")`, `strings.HasPrefix`,
  `strings.TrimPrefix`) are modelled executably at the `List Char` level
  (`trimSpaceChars`, `splitOnNl`, `List.isPrefixOf`, `List.drop`).
  `trimSpaceChars` trims the ASCII whitespace characters; the further
  Unicode space code points recognised by Go's `unicode.IsSpace` play no
  role in any claim and are not modelled.
* A configured LLM backend is modelled by its name together with the
  outcome (`Except String String`) that one call to it produces; the
  HTTP transport is absorbed into that outcome, exactly as the fallback
  loop in `ProviderManager` only ever inspects `result, err`.
* The response-handling tails of the adapter methods (everything after a
  successful JSON decode in `GenerateCommitMessage` / `GeneratePRContent`
  of each provider) are modelled as functions from the decoded response
  structure.  A Go runtime panic (out-of-range slice index) is modelled
  by `Option.none` in the one place the code can panic.
* `LoadConfig`'s interactions with the file system are modelled by an
  explicit environment record describing the outcome of each external
  call it makes.
-/

set_option maxRecDepth 10000

namespace Institutionalized

/-! ## Go string primitives at the character level -/

/-- ASCII whitespace characters, as trimmed by Go's `strings.TrimSpace`. -/
def isSpaceChar (c : Char) : Bool :=
  c == ' ' || c == '\t' || c == '\n' || c == '\r' || c == '\x0b' || c == '\x0c'

/-- Go `strings.TrimSpace`: drop whitespace from both ends of the character list. -/
def trimSpaceChars (s : List Char) : List Char :=
  List.rdropWhile isSpaceChar (List.dropWhile isSpaceChar s)

/-- Go `strings.TrimSpace` at the `String` level. -/
def stringsTrimSpace (s : String) : String :=
  (trimSpaceChars s.data).asString

/-- Go `strings.Split(s, "\n")`: cut the character list at every newline.
Always returns one more piece than the number of newlines. -/
def splitOnNl : List Char → List (List Char)
  | [] => [[]]
  | c :: rest =>
    match splitOnNl rest with
    | [] => [[c]]
    | l :: ls => if c = '\n' then [] :: l :: ls else (c :: l) :: ls

/-! ## parsePRResponse (src/internal/llm/providers.go, lines 932-963) -/

/-- The `"TITLE:"` marker scanned for by `parsePRResponse`. -/
def titleMarker : List Char := "TITLE:".data

/-- The `"BODY:"` marker scanned for by `parsePRResponse`. -/
def bodyMarker : List Char := "BODY:".data

/-- The mutable state of the line loop in `parsePRResponse`:
`var title, body string; var inBody bool`. -/
structure PRParseState where
  title : List Char
  body : List Char
  inBody : Bool
deriving DecidableEq

/-- One iteration of the `for _, line := range lines` loop of
`parsePRResponse`: trim the line, then either record a title, enter body
mode, append to the body, or ignore the line. -/
def parsePRLine (st : PRParseState) (rawLine : List Char) : PRParseState :=
  let line := trimSpaceChars rawLine
  if titleMarker.isPrefixOf line then
    { st with title := trimSpaceChars (line.drop titleMarker.length) }
  else if bodyMarker.isPrefixOf line then
    { st with inBody := true }
  else if st.inBody then
    { st with body := (if st.body ≠ [] then st.body ++ ['\n'] else st.body) ++ line }
  else
    st

/-- The state after the whole line loop of `parsePRResponse` has run. -/
def parsePRState (content : List Char) : PRParseState :=
  (splitOnNl content).foldl parsePRLine ⟨[], [], false⟩

/-- The function `parsePRResponse` over character lists: run the line loop, then apply
the two emptiness checks and the final `strings.TrimSpace` of the body. -/
def parsePRResponseChars (content : List Char) : Except String (List Char × List Char) :=
  if (parsePRState content).title = [] then
    Except.error "no title found in LLM response"
  else if (parsePRState content).body = [] then
    Except.error "no body found in LLM response"
  else
    Except.ok ((parsePRState content).title, trimSpaceChars (parsePRState content).body)

/-- The function `parsePRResponse` (src/internal/llm/providers.go, lines 932-963) at the
`String` level. -/
def parsePRResponse (content : String) : Except String (String × String) :=
  match parsePRResponseChars content.data with
  | Except.error e => Except.error e
  | Except.ok (t, b) => Except.ok (t.asString, b.asString)

/-! ## ProviderManager (src/internal/llm/providers.go, lines 965-1035)

A backend is modelled by its name and the outcome of one call to it.
`ProviderManager.GenerateCommitMessage` / `GeneratePRContent` additionally
return the list of backend names invoked, in invocation order, so that
the fallback discipline (each earlier backend called exactly once, none
after the first success) is part of the embedded function's result. -/

/-- Decidable equality for `Except`, needed to derive it for the
backend records below. -/
instance instDecidableEqExcept {ε α : Type} [DecidableEq ε] [DecidableEq α] :
    DecidableEq (Except ε α) := fun x y =>
  match x, y with
  | Except.ok a, Except.ok b =>
    if h : a = b then isTrue (by rw [h]) else
      isFalse (fun hc => h (Except.ok.inj hc))
  | Except.ok _, Except.error _ => isFalse (fun hc => Except.noConfusion hc)
  | Except.error _, Except.ok _ => isFalse (fun hc => Except.noConfusion hc)
  | Except.error a, Except.error b =>
    if h : a = b then isTrue (by rw [h]) else
      isFalse (fun hc => h (Except.error.inj hc))

/-- A configured commit-message backend: its `Name()` and the outcome of
one `GenerateCommitMessage` call. -/
structure Provider where
  name : String
  result : Except String String
deriving DecidableEq

/-- Outcome of `ProviderManager.GenerateCommitMessage`: the Go triple
`(string, string, error)`. -/
structure GenResult where
  text : String
  providerName : String
  err : Option String
deriving DecidableEq

/-- Whether an `Except` outcome is a failure (`err != nil` in Go). -/
def isFailure {ε α : Type} (r : Except ε α) : Bool :=
  match r with
  | Except.error _ => true
  | Except.ok _ => false

/-- Model of `ProviderManager.GenerateCommitMessage` (providers.go lines 980-1006):
try backends in order; return on the first success; on the last backend's
failure return the wrapping error; with no backends report
`"no providers available"`.  The first component is the invocation trace. -/
def ProviderManager.GenerateCommitMessage : List Provider → List String × GenResult
  | [] => ([], { text := "", providerName := "", err := some "no providers available" })
  | p :: rest =>
    match p.result with
    | Except.ok r => ([p.name], { text := r, providerName := p.name, err := none })
    | Except.error e =>
      match rest with
      | [] =>
        let msg := "all providers failed, last error from " ++ p.name ++ ": " ++ e
        ([p.name], { text := "", providerName := p.name, err := some msg })
      | q :: qs =>
        let pr := ProviderManager.GenerateCommitMessage (q :: qs)
        (p.name :: pr.1, pr.2)

/-- A configured PR-content backend: its `Name()` and the outcome
(title and body) of one `GeneratePRContent` call. -/
structure PRProvider where
  name : String
  result : Except String (String × String)
deriving DecidableEq

/-- Outcome of `ProviderManager.GeneratePRContent`: the Go quadruple
`(string, string, string, error)`. -/
structure PRGenResult where
  title : String
  body : String
  providerName : String
  err : Option String
deriving DecidableEq

/-- Model of `ProviderManager.GeneratePRContent` (providers.go lines 1009-1035):
identical fallback discipline to `GenerateCommitMessage`. -/
def ProviderManager.GeneratePRContent : List PRProvider → List String × PRGenResult
  | [] => ([], { title := "", body := "", providerName := "", err := some "no providers available" })
  | p :: rest =>
    match p.result with
    | Except.ok (t, b) =>
      ([p.name], { title := t, body := b, providerName := p.name, err := none })
    | Except.error e =>
      match rest with
      | [] =>
        let msg := "all providers failed, last error from " ++ p.name ++ ": " ++ e
        ([p.name], { title := "", body := "", providerName := p.name, err := some msg })
      | q :: qs =>
        let pr := ProviderManager.GeneratePRContent (q :: qs)
        (p.name :: pr.1, pr.2)

/-! ## Adapter response handling (src/internal/llm/providers.go)

The decoded response structures of the three backends, and the
response-handling tail of each adapter method: everything the Go code
does after `json.Unmarshal` succeeds.  Transport and decode failures
short-circuit into an `Except.error` before this point and play no role
in the claims about decodable bodies. -/

/-- OpenAI `message` structure. -/
structure message where
  role : String
  content : String
deriving DecidableEq

/-- OpenAI `choice` structure. -/
structure choice where
  message : message
deriving DecidableEq

/-- OpenAI `apiError` structure. -/
structure apiError where
  message : String
  type : String
deriving DecidableEq

/-- OpenAI `openAIResponse` structure. -/
structure openAIResponse where
  choices : List choice
  error : Option apiError
deriving DecidableEq

/-- Gemini `geminiPart` structure. -/
structure geminiPart where
  text : String
deriving DecidableEq

/-- Gemini `geminiContent` structure. -/
structure geminiContent where
  parts : List geminiPart
deriving DecidableEq

/-- Gemini `geminiCandidate` structure. -/
structure geminiCandidate where
  content : geminiContent
deriving DecidableEq

/-- Gemini `geminiError` structure. -/
structure geminiError where
  code : Int
  message : String
deriving DecidableEq

/-- Gemini `geminiResponse` structure. -/
structure geminiResponse where
  candidates : List geminiCandidate
  error : Option geminiError
deriving DecidableEq

/-- Claude `claudeContent` structure. -/
structure claudeContent where
  text : String
deriving DecidableEq

/-- Claude `claudeError` structure. -/
structure claudeError where
  type : String
  message : String
deriving DecidableEq

/-- Claude `claudeResponse` structure. -/
structure claudeResponse where
  content : List claudeContent
  error : Option claudeError
deriving DecidableEq

/-- Response handling of `OpenAIProvider.GenerateCommitMessage`
(providers.go lines 498-507). -/
def OpenAIProvider.GenerateCommitMessageFromResponse (r : openAIResponse) :
    Except String String :=
  match r.error with
  | some e => Except.error ("OpenAI API error: " ++ e.message)
  | none =>
    match r.choices with
    | [] => Except.error "no response from OpenAI"
    | c :: _ => Except.ok c.message.content

/-- Response handling of `OpenAIProvider.GeneratePRContent`
(providers.go lines 587-596): the first choice's content is handed
verbatim to `parsePRResponse`. -/
def OpenAIProvider.GeneratePRContentFromResponse (r : openAIResponse) :
    Except String (String × String) :=
  match r.error with
  | some e => Except.error ("OpenAI API error: " ++ e.message)
  | none =>
    match r.choices with
    | [] => Except.error "no response from OpenAI"
    | c :: _ => parsePRResponse c.message.content

/-- Response handling of `GeminiProvider.GenerateCommitMessage`
(providers.go lines 661-673), including the empty-`Parts` guard. -/
def GeminiProvider.GenerateCommitMessageFromResponse (r : geminiResponse) :
    Except String String :=
  match r.error with
  | some e => Except.error ("Gemini API error: " ++ e.message)
  | none =>
    match r.candidates with
    | [] => Except.error "no response from Gemini"
    | c :: _ =>
      match c.content.parts with
      | [] => Except.error "empty response from Gemini"
      | p :: _ => Except.ok p.text

/-- Response handling of `GeminiProvider.GeneratePRContent`
(providers.go lines 757-766).  The Go code reads
`geminiResp.Candidates[0].Content.Parts[0].Text` with no emptiness check
on `Parts`; indexing `Parts[0]` on an empty slice is a Go runtime panic,
modelled here by `none`. -/
def GeminiProvider.GeneratePRContentFromResponse (r : geminiResponse) :
    Option (Except String (String × String)) :=
  match r.error with
  | some e => some (Except.error ("Gemini API error: " ++ e.message))
  | none =>
    match r.candidates with
    | [] => some (Except.error "no response from Gemini")
    | c :: _ =>
      match c.content.parts with
      | [] => none
      | p :: _ => some (parsePRResponse p.text)

/-- Response handling of `ClaudeProvider.GenerateCommitMessage`
(providers.go lines 828-837). -/
def ClaudeProvider.GenerateCommitMessageFromResponse (r : claudeResponse) :
    Except String String :=
  match r.error with
  | some e => Except.error ("Claude API error: " ++ e.message)
  | none =>
    match r.content with
    | [] => Except.error "no response from Claude"
    | c :: _ => Except.ok c.text

/-- Response handling of `ClaudeProvider.GeneratePRContent`
(providers.go lines 919-929). -/
def ClaudeProvider.GeneratePRContentFromResponse (r : claudeResponse) :
    Except String (String × String) :=
  match r.error with
  | some e => Except.error ("Claude API error: " ++ e.message)
  | none =>
    match r.content with
    | [] => Except.error "no response from Claude"
    | c :: _ => parsePRResponse c.text

/-! ## Commit-message prompt (src/unnamed/part_000, `CommitMessagePromptTemplate`,
and the identical inline prompt of the adapters, providers.go lines 442-459) -/

/-- The fixed emoji instruction line appended when `useEmoji` is true,
enumerating the eleven commit-type to glyph mappings. -/
def commitEmojiInstruction : String :=
  "\n- Add an appropriate emoji at the beginning of the commit type (✨ feat, 🐛 fix, 📚 docs, 💄 style, ♻️ refactor, ✅ test, 🔧 chore, ⚡ perf, 👷 ci, 🏗️ build, ⏪ revert)"

/-- The fixed text of the commit prompt before the optional emoji
instruction. -/
def commitPromptHeader : String :=
  "Analyze the following git diff and generate a conventional commit message. \n\nThe commit message should follow the Conventional Commits specification:\n- Start with a type (feat, fix, docs, style, refactor, test, chore, etc.)\n- Include a brief description in present tense\n- Keep the first line under 50 characters if possible\n- Add a body if the change is complex (separate with blank line)"

/-- The fixed text of the commit prompt between the emoji instruction and
the interpolated diff. -/
def commitPromptMid : String := "\n\nGit diff:\n"

/-- The fixed text of the commit prompt after the interpolated diff. -/
def commitPromptFooter : String := "\n\nReturn only the commit message, nothing else."

/-- Model of `CommitMessagePromptTemplate(diff, useEmoji)` (src/unnamed/part_000,
lines 6-24): the `fmt.Sprintf` that builds the commit prompt. -/
def CommitMessagePromptTemplate (diff : String) (useEmoji : Bool) : String :=
  commitPromptHeader ++ (if useEmoji then commitEmojiInstruction else "")
    ++ commitPromptMid ++ diff ++ commitPromptFooter

/-- The eleven commit-type to glyph mappings enumerated by the emoji
instruction line. -/
def emojiMappings : List String :=
  ["✨ feat", "🐛 fix", "📚 docs", "💄 style", "♻️ refactor", "✅ test",
   "🔧 chore", "⚡ perf", "👷 ci", "🏗️ build", "⏪ revert"]

/-- The leading glyph character of each of the eleven mappings. -/
def glyphChars : List Char :=
  ['✨', '🐛', '📚', '💄', '♻', '✅', '🔧', '⚡', '👷', '🏗', '⏪']

/-! ## LoadConfig (src/internal/config/config.go, lines 104-234) -/

/-- The `ProviderConfig` structure. -/
structure ProviderConfig where
  enabled : Bool
deriving DecidableEq

/-- The `Providers` structure. -/
structure Providers where
  openAI : ProviderConfig
  gemini : ProviderConfig
  priority : String
  delayThreshold : Int
deriving DecidableEq

/-- The `Config` structure. -/
structure Config where
  useEmoji : Bool
  providers : Providers
deriving DecidableEq

/-- Model of `DefaultConfig()` (config.go lines 138-152). -/
def DefaultConfig : Config :=
  { useEmoji := false
    providers :=
      { openAI := { enabled := true }
        gemini := { enabled := true }
        priority := "openai"
        delayThreshold := 10 } }

/-- Outcomes of the external calls made by `LoadConfig`:
`os.UserHomeDir` (`none` = error), whether `os.Stat` reports the config
file as not existing, `os.ReadFile` (`none` = error), and
`yaml.Unmarshal` on the file contents (`none` = parse error). -/
structure ConfigIOEnv where
  homeDir : Option String
  fileAbsent : Bool
  readResult : Option String
  yamlParse : String → Option Config

/-- Model of `LoadConfig()` (config.go lines 155-177): every failure path returns
the default configuration paired with a nil error. -/
def LoadConfig (env : ConfigIOEnv) : Config × Option String :=
  match env.homeDir with
  | none => (DefaultConfig, none)
  | some _ =>
    if env.fileAbsent then (DefaultConfig, none)
    else
      match env.readResult with
      | none => (DefaultConfig, none)
      | some data =>
        match env.yamlParse data with
        | none => (DefaultConfig, none)
        | some cfg => (cfg, none)

/-! ## Helper lemmas -/

/-- String concatenation concatenates the underlying character lists. -/
theorem string_data_append (a b : String) : (a ++ b).data = a.data ++ b.data := rfl

/-- The middle part of a three-way concatenation is an infix. -/
theorem infix_middle {α : Type} (A M B : List α) : M <:+: A ++ M ++ B := ⟨A, B, rfl⟩

/-- A non-space character of a list survives `trimSpaceChars`. -/
theorem mem_trimSpaceChars_of_mem {l : List Char} {c : Char}
    (hc : c ∈ l) (hns : isSpaceChar c = false) : c ∈ trimSpaceChars l := by
  have hsplit : List.takeWhile isSpaceChar l ++ List.dropWhile isSpaceChar l = l :=
    List.takeWhile_append_dropWhile isSpaceChar l
  have h1 : c ∈ List.dropWhile isSpaceChar l := by
    rw [← hsplit] at hc
    rcases List.mem_append.mp hc with h | h
    · have := List.mem_takeWhile_imp h
      rw [hns] at this
      exact absurd this (by simp)
    · exact h
  set m := List.dropWhile isSpaceChar l with hm
  have h2 : c ∈ List.dropWhile isSpaceChar m.reverse := by
    have hmem : c ∈ m.reverse := List.mem_reverse.mpr h1
    have hsplit2 : List.takeWhile isSpaceChar m.reverse ++ List.dropWhile isSpaceChar m.reverse
        = m.reverse := List.takeWhile_append_dropWhile isSpaceChar m.reverse
    rw [← hsplit2] at hmem
    rcases List.mem_append.mp hmem with h | h
    · have := List.mem_takeWhile_imp h
      rw [hns] at this
      exact absurd this (by simp)
    · exact h
  unfold trimSpaceChars List.rdropWhile
  rw [← hm]
  exact List.mem_reverse.mpr h2

/-- The function `trimSpaceChars` yields the empty list exactly when every character
is whitespace. -/
theorem trimSpaceChars_eq_nil_iff {l : List Char} :
    trimSpaceChars l = [] ↔ ∀ c ∈ l, isSpaceChar c = true := by
  constructor
  · intro h c hc
    by_contra hns
    have := mem_trimSpaceChars_of_mem hc (by simpa using hns)
    rw [h] at this
    exact absurd this (List.not_mem_nil c)
  · intro h
    have hd : List.dropWhile isSpaceChar l = [] := List.dropWhile_eq_nil_iff.mpr h
    unfold trimSpaceChars
    rw [hd]
    simp

/-- The body accumulated by the line loop is empty or contains a
non-space character. -/
def BodyInv (st : PRParseState) : Prop :=
  st.body = [] ∨ ∃ c ∈ st.body, isSpaceChar c = false

/-- A nonempty trimmed list contains a non-space character. -/
theorem exists_nonspace_of_trim_ne_nil {l : List Char}
    (h : trimSpaceChars l ≠ []) : ∃ c ∈ trimSpaceChars l, isSpaceChar c = false := by
  have h' : (List.dropWhile isSpaceChar l).rdropWhile isSpaceChar ≠ [] := h
  have hlast := List.rdropWhile_last_not isSpaceChar (List.dropWhile isSpaceChar l) h'
  exact ⟨_, List.getLast_mem h', by simpa using hlast⟩

/-- One loop iteration preserves `BodyInv`. -/
theorem parsePRLine_bodyInv {st : PRParseState} (raw : List Char)
    (h : BodyInv st) : BodyInv (parsePRLine st raw) := by
  unfold parsePRLine
  by_cases h1 : titleMarker.isPrefixOf (trimSpaceChars raw)
  · simpa [h1, BodyInv] using h
  by_cases h2 : bodyMarker.isPrefixOf (trimSpaceChars raw)
  · simpa [h1, h2, BodyInv] using h
  by_cases h3 : st.inBody
  · simp only [h1, h2, h3, BodyInv, if_false, if_true, Bool.false_eq_true, ite_false, ite_true]
    rcases h with hb | ⟨c, hc, hns⟩
    · simp only [hb]
      by_cases hline : trimSpaceChars raw = []
      · left
        simp [hline]
      · right
        obtain ⟨c, hc, hns⟩ := exists_nonspace_of_trim_ne_nil hline
        exact ⟨c, by simp [hc], hns⟩
    · right
      refine ⟨c, ?_, hns⟩
      by_cases hb : st.body = []
      · rw [hb] at hc
        exact absurd hc (List.not_mem_nil c)
      · simp [hb, hc]
  · simpa [h1, h2, h3, BodyInv] using h

/-- The whole line loop preserves `BodyInv`. -/
theorem foldl_parsePRLine_bodyInv (lines : List (List Char)) (st : PRParseState)
    (h : BodyInv st) : BodyInv (lines.foldl parsePRLine st) := by
  induction lines generalizing st with
  | nil => exact h
  | cons l ls ih => exact ih _ (parsePRLine_bodyInv l h)

/-- A loop iteration on a line that does not carry the `TITLE:` marker
leaves the title unchanged. -/
theorem parsePRLine_title_of_no_marker {st : PRParseState} {raw : List Char}
    (h : titleMarker.isPrefixOf (trimSpaceChars raw) = false) :
    (parsePRLine st raw).title = st.title := by
  unfold parsePRLine
  simp only [h, Bool.false_eq_true, if_false, ite_false]
  by_cases h2 : bodyMarker.isPrefixOf (trimSpaceChars raw) <;>
    by_cases h3 : st.inBody <;> simp [h2, h3]

/-- If no line carries the `TITLE:` marker, the loop leaves the initial
title unchanged. -/
theorem foldl_parsePRLine_title (lines : List (List Char)) (st : PRParseState)
    (h : ∀ l ∈ lines, titleMarker.isPrefixOf (trimSpaceChars l) = false) :
    (lines.foldl parsePRLine st).title = st.title := by
  induction lines generalizing st with
  | nil => rfl
  | cons l ls ih =>
    rw [List.foldl_cons, ih _ (fun x hx => h x (by simp [hx]))]
    exact parsePRLine_title_of_no_marker (h l (by simp))

/-! ## Claim theorems -/

/-- C1: if the first `k` backends all fail and backend `k+1` (0-indexed
`k`) succeeds with text `t`, `ProviderManager.GenerateCommitMessage`
returns `t` and that backend's name with no error, and the invocation
trace is exactly the names of backends `0..k` in list order: each earlier
backend invoked exactly once before the successful one, none after it. -/
theorem c1_first_success_wins (ps : List Provider) (k : Nat) (nm t : String)
    (hfail : ((ps.take k).all fun p => isFailure p.result) = true)
    (hk : ps[k]? = some { name := nm, result := Except.ok t }) :
    ProviderManager.GenerateCommitMessage ps =
      ((ps.take (k + 1)).map Provider.name,
        { text := t, providerName := nm, err := none }) := by
  induction ps generalizing k with
  | nil => simp at hk
  | cons p rest ih =>
    cases k with
    | zero =>
      have hp : p = { name := nm, result := Except.ok t } := by simpa using hk
      subst hp
      simp [ProviderManager.GenerateCommitMessage]
    | succ k' =>
      have hpfail : isFailure p.result = true := by
        have h := hfail
        rw [List.take_succ_cons, List.all_cons] at h
        exact (Bool.and_eq_true ..).mp h |>.1
      obtain ⟨e, he⟩ : ∃ e, p.result = Except.error e := by
        cases hres : p.result with
        | ok r =>
          rw [hres] at hpfail
          simp [isFailure] at hpfail
        | error e => exact ⟨e, rfl⟩
      have hk' : rest[k']? = some { name := nm, result := Except.ok t } := by
        simpa using hk
      obtain ⟨q, qs, rfl⟩ : ∃ q qs, rest = q :: qs := by
        cases rest with
        | nil => simp at hk'
        | cons q qs => exact ⟨q, qs, rfl⟩
      have hfail' : (((q :: qs).take k').all fun p => isFailure p.result) = true := by
        have h := hfail
        rw [List.take_succ_cons, List.all_cons] at h
        exact (Bool.and_eq_true ..).mp h |>.2
      have hrec := ih k' hfail' hk'
      simp only [ProviderManager.GenerateCommitMessage, he, hrec, List.take_succ_cons,
        List.map_cons]

/-- C1 witness: a three-backend list whose first backend fails and whose
second succeeds; only the first two are invoked, in order. -/
theorem c1_first_success_wins_w :
    ProviderManager.GenerateCommitMessage
      [{ name := "OpenAI", result := Except.error "quota" },
       { name := "Gemini", result := Except.ok "feat: x" },
       { name := "Claude", result := Except.ok "unused" }] =
      (["OpenAI", "Gemini"], { text := "feat: x", providerName := "Gemini", err := none }) := by
  have h := c1_first_success_wins
    [{ name := "OpenAI", result := Except.error "quota" },
     { name := "Gemini", result := Except.ok "feat: x" },
     { name := "Claude", result := Except.ok "unused" }]
    1 "Gemini" "feat: x" (by decide) rfl
  simpa using h

/-- When every backend fails, `GenerateCommitMessage` invokes all of them
in order and returns the error built from the last backend's name and
underlying error. -/
theorem genCommit_all_fail (ps : List Provider) (nm e : String)
    (hfail : (ps.all fun p => isFailure p.result) = true)
    (hlast : ps.getLast? = some { name := nm, result := Except.error e }) :
    ProviderManager.GenerateCommitMessage ps =
      (ps.map Provider.name,
        { text := "", providerName := nm,
          err := some ("all providers failed, last error from " ++ nm ++ ": " ++ e) }) := by
  induction ps with
  | nil => simp at hlast
  | cons p rest ih =>
    have hpfail : isFailure p.result = true := by
      rw [List.all_cons] at hfail
      exact (Bool.and_eq_true ..).mp hfail |>.1
    obtain ⟨e0, he0⟩ : ∃ e0, p.result = Except.error e0 := by
      cases hres : p.result with
      | ok r =>
        rw [hres] at hpfail
        simp [isFailure] at hpfail
      | error e0 => exact ⟨e0, rfl⟩
    cases rest with
    | nil =>
      have hp : p = { name := nm, result := Except.error e } := by simpa using hlast
      subst hp
      have he : e0 = e := by
        have := he0
        simp at this
        exact this.symm
      subst he
      simp [ProviderManager.GenerateCommitMessage, he0]
    | cons q qs =>
      have hfail' : ((q :: qs).all fun p => isFailure p.result) = true := by
        rw [List.all_cons] at hfail
        exact (Bool.and_eq_true ..).mp hfail |>.2
      have hlast' : (q :: qs).getLast? = some { name := nm, result := Except.error e } := by
        rw [← hlast]
        exact (List.getLast?_cons_cons ..).symm ▸ rfl
      have hrec := ih hfail' hlast'
      simp only [ProviderManager.GenerateCommitMessage, he0, hrec, List.map_cons]

/-- When every backend fails, `GeneratePRContent` invokes all of them in
order and returns the error built from the last backend's name and
underlying error. -/
theorem genPR_all_fail (ps : List PRProvider) (nm e : String)
    (hfail : (ps.all fun p => isFailure p.result) = true)
    (hlast : ps.getLast? = some { name := nm, result := Except.error e }) :
    ProviderManager.GeneratePRContent ps =
      (ps.map PRProvider.name,
        { title := "", body := "", providerName := nm,
          err := some ("all providers failed, last error from " ++ nm ++ ": " ++ e) }) := by
  induction ps with
  | nil => simp at hlast
  | cons p rest ih =>
    have hpfail : isFailure p.result = true := by
      rw [List.all_cons] at hfail
      exact (Bool.and_eq_true ..).mp hfail |>.1
    obtain ⟨e0, he0⟩ : ∃ e0, p.result = Except.error e0 := by
      cases hres : p.result with
      | ok r =>
        rw [hres] at hpfail
        simp [isFailure] at hpfail
      | error e0 => exact ⟨e0, rfl⟩
    cases rest with
    | nil =>
      have hp : p = { name := nm, result := Except.error e } := by simpa using hlast
      subst hp
      have he : e0 = e := by
        have := he0
        simp at this
        exact this.symm
      subst he
      simp [ProviderManager.GeneratePRContent, he0]
    | cons q qs =>
      have hfail' : ((q :: qs).all fun p => isFailure p.result) = true := by
        rw [List.all_cons] at hfail
        exact (Bool.and_eq_true ..).mp hfail |>.2
      have hlast' : (q :: qs).getLast? = some { name := nm, result := Except.error e } := by
        rw [← hlast]
        exact (List.getLast?_cons_cons ..).symm ▸ rfl
      have hrec := ih hfail' hlast'
      simp only [ProviderManager.GeneratePRContent, he0, hrec, List.map_cons]

/-- C2: when every backend fails, `GenerateCommitMessage` and
`GeneratePRContent` return an error built solely from the last backend's
name and underlying error (all earlier errors are discarded); the error
text contains the last backend's name and its underlying error text as
substrings, and the returned backend name is the last backend's. -/
theorem c2_all_fail_names_last (ps : List Provider) (qs : List PRProvider) (nm e nmq eq0 : String)
    (hfail : (ps.all fun p => isFailure p.result) = true)
    (hlast : ps.getLast? = some { name := nm, result := Except.error e })
    (hfailq : (qs.all fun p => isFailure p.result) = true)
    (hlastq : qs.getLast? = some { name := nmq, result := Except.error eq0 }) :
    (ProviderManager.GenerateCommitMessage ps =
      (ps.map Provider.name,
        { text := "", providerName := nm,
          err := some ("all providers failed, last error from " ++ nm ++ ": " ++ e) }) ∧
      nm.data <:+: ("all providers failed, last error from " ++ nm ++ ": " ++ e).data ∧
      e.data <:+: ("all providers failed, last error from " ++ nm ++ ": " ++ e).data) ∧
    (ProviderManager.GeneratePRContent qs =
      (qs.map PRProvider.name,
        { title := "", body := "", providerName := nmq,
          err := some ("all providers failed, last error from " ++ nmq ++ ": " ++ eq0) }) ∧
      nmq.data <:+: ("all providers failed, last error from " ++ nmq ++ ": " ++ eq0).data ∧
      eq0.data <:+: ("all providers failed, last error from " ++ nmq ++ ": " ++ eq0).data) := by
  have hinfix : ∀ a b : String,
      (a.data <:+: ("all providers failed, last error from " ++ a ++ ": " ++ b).data) ∧
      (b.data <:+: ("all providers failed, last error from " ++ a ++ ": " ++ b).data) := by
    intro a b
    constructor
    · have hshape : ("all providers failed, last error from " ++ a ++ ": " ++ b).data =
          "all providers failed, last error from ".data ++ a.data ++ (": ".data ++ b.data) := by
        simp [string_data_append, List.append_assoc]
      rw [hshape]
      exact infix_middle _ _ _
    · have hshape : ("all providers failed, last error from " ++ a ++ ": " ++ b).data =
          ("all providers failed, last error from ".data ++ a.data ++ ": ".data)
            ++ b.data ++ [] := by
        simp [string_data_append, List.append_assoc]
      rw [hshape]
      exact infix_middle _ _ _
  exact ⟨⟨genCommit_all_fail ps nm e hfail hlast, hinfix nm e⟩,
    ⟨genPR_all_fail qs nmq eq0 hfailq hlastq, hinfix nmq eq0⟩⟩

/-- C2 witness: two backends that both fail, for each manager. -/
theorem c2_all_fail_names_last_w :
    (ProviderManager.GenerateCommitMessage
      [{ name := "OpenAI", result := Except.error "quota" },
       { name := "Gemini", result := Except.error "overloaded" }] =
      (["OpenAI", "Gemini"],
        { text := "", providerName := "Gemini",
          err := some "all providers failed, last error from Gemini: overloaded" }) ∧
      "Gemini".data <:+:
        ("all providers failed, last error from " ++ "Gemini" ++ ": " ++ "overloaded").data ∧
      "overloaded".data <:+:
        ("all providers failed, last error from " ++ "Gemini" ++ ": " ++ "overloaded").data) ∧
    (ProviderManager.GeneratePRContent
      [{ name := "Claude", result := Except.error "down" }] =
      (["Claude"],
        { title := "", body := "", providerName := "Claude",
          err := some "all providers failed, last error from Claude: down" }) ∧
      "Claude".data <:+:
        ("all providers failed, last error from " ++ "Claude" ++ ": " ++ "down").data ∧
      "down".data <:+:
        ("all providers failed, last error from " ++ "Claude" ++ ": " ++ "down").data) := by
  have h := c2_all_fail_names_last
    [{ name := "OpenAI", result := Except.error "quota" },
     { name := "Gemini", result := Except.error "overloaded" }]
    [{ name := "Claude", result := Except.error "down" }]
    "Gemini" "overloaded" "Claude" "down" (by decide) rfl (by decide) rfl
  simpa using h

/-- C3: with an empty ordered provider list, both
`ProviderManager.GenerateCommitMessage` and
`ProviderManager.GeneratePRContent` fail immediately with the distinct
`"no providers available"` error and invoke zero providers (empty
invocation trace). -/
theorem c3_empty_provider_list :
    ProviderManager.GenerateCommitMessage [] =
      ([], { text := "", providerName := "", err := some "no providers available" }) ∧
    ProviderManager.GeneratePRContent [] =
      ([], { title := "", body := "", providerName := "", err := some "no providers available" }) :=
  ⟨rfl, rfl⟩

/-- C4: on a decodable Gemini body with no error field, one candidate and
zero parts, `GeminiProvider.GeneratePRContent` indexes `Parts[0]` out of
bounds — a Go runtime panic, modelled by `none` — instead of the
`"empty response"` failure the claim requires; the sibling
`GenerateCommitMessage` handler on the very same body returns that
failure, exhibiting the intended behaviour the PR path omits. -/
theorem c4_gemini_pr_empty_parts_panics :
    GeminiProvider.GeneratePRContentFromResponse
      { candidates := [{ content := { parts := [] } }], error := none } = none ∧
    GeminiProvider.GenerateCommitMessageFromResponse
      { candidates := [{ content := { parts := [] } }], error := none } =
      Except.error "empty response from Gemini" :=
  ⟨rfl, rfl⟩

/-- C6 counterexample: the claim says commit-message adapters return the
first result entry's text with leading and trailing whitespace removed;
on a successful OpenAI body whose first choice is `"  feat: x  "` the
adapter returns `"  feat: x  "` verbatim, not the trimmed `"feat: x"`. -/
theorem c6_commit_text_not_trimmed_cex :
    OpenAIProvider.GenerateCommitMessageFromResponse
      { choices := [{ message := { role := "assistant", content := "  feat: x  " } }],
        error := none } = Except.ok "  feat: x  " ∧
    stringsTrimSpace "  feat: x  " = "feat: x" ∧
    ("  feat: x  " : String) ≠ "feat: x" :=
  ⟨rfl, rfl, by decide⟩

/-- C6 amended: on a successful backend response every adapter returns
the first result entry's text verbatim — untrimmed both for commit
messages and for PR content, the latter handed as-is to
`parsePRResponse`. -/
theorem c6_first_entry_verbatim (c : choice) (cs : List choice)
    (p : geminiPart) (ps : List geminiPart) (gs : List geminiCandidate)
    (cc : claudeContent) (ccs : List claudeContent) :
    OpenAIProvider.GenerateCommitMessageFromResponse { choices := c :: cs, error := none } =
      Except.ok c.message.content ∧
    GeminiProvider.GenerateCommitMessageFromResponse
      { candidates := { content := { parts := p :: ps } } :: gs, error := none } =
      Except.ok p.text ∧
    ClaudeProvider.GenerateCommitMessageFromResponse { content := cc :: ccs, error := none } =
      Except.ok cc.text ∧
    OpenAIProvider.GeneratePRContentFromResponse { choices := c :: cs, error := none } =
      parsePRResponse c.message.content ∧
    ClaudeProvider.GeneratePRContentFromResponse { content := cc :: ccs, error := none } =
      parsePRResponse cc.text ∧
    GeminiProvider.GeneratePRContentFromResponse
      { candidates := { content := { parts := p :: ps } } :: gs, error := none } =
      some (parsePRResponse p.text) :=
  ⟨rfl, rfl, rfl, rfl, rfl, rfl⟩

/-- C7: `parsePRResponseChars` either fails or returns a non-empty title
and a non-empty body; when no `TITLE:` line occurs it fails with the
missing-title error; when a title was found but no non-empty body was
assembled it fails with the missing-body error — an input satisfying
only one of the two markers is a total parse failure. -/
theorem c7_total_failure_or_both_nonempty (content : List Char) :
    ((∀ l ∈ splitOnNl content, titleMarker.isPrefixOf (trimSpaceChars l) = false) →
      parsePRResponseChars content = Except.error "no title found in LLM response") ∧
    ((parsePRState content).title ≠ [] → (parsePRState content).body = [] →
      parsePRResponseChars content = Except.error "no body found in LLM response") ∧
    (∀ t b, parsePRResponseChars content = Except.ok (t, b) → t ≠ [] ∧ b ≠ []) := by
  refine ⟨?_, ?_, ?_⟩
  · intro h
    have ht : (parsePRState content).title = [] := by
      unfold parsePRState
      exact foldl_parsePRLine_title _ _ h
    unfold parsePRResponseChars
    simp [ht]
  · intro h1 h2
    unfold parsePRResponseChars
    simp [h1, h2]
  · intro t b hok
    unfold parsePRResponseChars at hok
    by_cases h1 : (parsePRState content).title = []
    · simp [h1] at hok
    by_cases h2 : (parsePRState content).body = []
    · simp [h1, h2] at hok
    simp only [h1, h2, if_false, ite_false] at hok
    obtain ⟨hteq, hbeq⟩ := Prod.mk.injEq .. ▸ Except.ok.inj hok
    constructor
    · rw [← hteq]
      exact h1
    · rw [← hbeq]
      have hinv : BodyInv (parsePRState content) :=
        foldl_parsePRLine_bodyInv _ _ (Or.inl rfl)
      rcases hinv with hb | ⟨c, hc, hns⟩
      · exact absurd hb h2
      · exact List.ne_nil_of_mem (mem_trimSpaceChars_of_mem hc hns)

/-- C7 witness: the three conjuncts of `c7_total_failure_or_both_nonempty`
exercised on concrete inputs. -/
theorem c7_total_failure_or_both_nonempty_w :
    parsePRResponseChars "hello".data = Except.error "no title found in LLM response" ∧
    parsePRResponseChars "TITLE: t".data = Except.error "no body found in LLM response" ∧
    ("Add X".data ≠ ([] : List Char) ∧ "Line1\nLine2".data ≠ ([] : List Char)) :=
  ⟨(c7_total_failure_or_both_nonempty "hello".data).1 (by decide),
   (c7_total_failure_or_both_nonempty "TITLE: t".data).2.1 (by decide) (by decide),
   (c7_total_failure_or_both_nonempty "TITLE: Add X\n\nBODY:\nLine1\nLine2".data).2.2
     "Add X".data "Line1\nLine2".data rfl⟩

/-- C5 counterexample: the claim states that once `BODY:` has been seen,
every subsequent line — including lines beginning with `TITLE:` or
`BODY:` — is appended to the body with its own whitespace preserved,
the only trimming being one final trim of the assembled body.  Both
parts fail: a `TITLE:`-prefixed line after the marker is treated as a
title line (so the body here stays empty and parsing fails, where the
claim predicts success with body `"TITLE: z"`), and each appended line
is individually trimmed (body `"a\nb"`, where the claim predicts
`"a  \nb"`). -/
theorem c5_body_lines_cex :
    parsePRResponse "TITLE: t\nBODY:\nTITLE: z" =
      Except.error "no body found in LLM response" ∧
    parsePRResponse "TITLE: t\nBODY:\n  a  \nb" = Except.ok ("t", "a\nb") ∧
    parsePRResponse "TITLE: t\nBODY:\n  a  \nb" ≠ Except.ok ("t", "a  \nb") :=
  ⟨rfl, rfl, by decide⟩

/-- C5 amended: once the `BODY:` marker has been seen, body mode persists
and every subsequent line is first trimmed of leading and trailing
whitespace; if the trimmed line begins with `TITLE:` or `BODY:` it is
treated as a marker line and not appended, otherwise it is appended with
a newline between already-accumulated lines; on success the returned
body is the assembled body trimmed exactly once more at the end. -/
theorem c5_body_accumulation :
    (∀ st raw, st.inBody = true →
      (parsePRLine st raw).inBody = true ∧
      (parsePRLine st raw).body =
        (if titleMarker.isPrefixOf (trimSpaceChars raw)
            || bodyMarker.isPrefixOf (trimSpaceChars raw) then st.body
         else (if st.body ≠ [] then st.body ++ ['\n'] else st.body) ++ trimSpaceChars raw)) ∧
    (∀ content t b, parsePRResponseChars content = Except.ok (t, b) →
      t = (parsePRState content).title ∧ b = trimSpaceChars (parsePRState content).body) := by
  constructor
  · intro st raw hin
    unfold parsePRLine
    by_cases h1 : titleMarker.isPrefixOf (trimSpaceChars raw)
    · simp [h1, hin]
    by_cases h2 : bodyMarker.isPrefixOf (trimSpaceChars raw)
    · simp [h1, h2]
    · simp [h1, h2, hin]
  · intro content t b hok
    unfold parsePRResponseChars at hok
    by_cases h1 : (parsePRState content).title = []
    · simp [h1] at hok
    by_cases h2 : (parsePRState content).body = []
    · simp [h1, h2] at hok
    simp only [h1, h2, if_false, ite_false] at hok
    obtain ⟨hteq, hbeq⟩ := Prod.mk.injEq .. ▸ Except.ok.inj hok
    exact ⟨hteq.symm, hbeq.symm⟩

/-- C5 witness: `c5_body_accumulation` applied to a concrete in-body
state and line, and to a concrete successful parse. -/
theorem c5_body_accumulation_w :
    ((parsePRLine ⟨"t".data, "x".data, true⟩ "  a  ".data).inBody = true ∧
      (parsePRLine ⟨"t".data, "x".data, true⟩ "  a  ".data).body =
        (if titleMarker.isPrefixOf (trimSpaceChars "  a  ".data)
            || bodyMarker.isPrefixOf (trimSpaceChars "  a  ".data) then "x".data
         else (if "x".data ≠ [] then "x".data ++ ['\n'] else "x".data)
           ++ trimSpaceChars "  a  ".data)) ∧
    ("t".data = (parsePRState "TITLE: t\nBODY:\nb".data).title ∧
      "b".data = trimSpaceChars (parsePRState "TITLE: t\nBODY:\nb".data).body) :=
  ⟨c5_body_accumulation.1 ⟨"t".data, "x".data, true⟩ "  a  ".data rfl,
   c5_body_accumulation.2 "TITLE: t\nBODY:\nb".data "t".data "b".data rfl⟩

/-- C9 counterexample: the claim quantifies over every diff string, but a
diff that itself contains a glyph mapping makes the `useEmoji = false`
prompt contain that mapping: with `diff = "✨ feat"` the no-emoji prompt
contains `"✨ feat"`. -/
theorem c9_no_emoji_prompt_cex :
    "✨ feat".data <:+: (CommitMessagePromptTemplate "✨ feat" false).data := by
  have hshape : (CommitMessagePromptTemplate "✨ feat" false).data =
      (commitPromptHeader.data ++ commitPromptMid.data) ++ "✨ feat".data
        ++ commitPromptFooter.data := by
    simp [CommitMessagePromptTemplate, string_data_append, List.append_assoc]
  rw [hshape]
  exact infix_middle _ _ _

/-- C9 amended: for every diff, the `useEmoji = true` commit prompt
contains the fixed instruction line and with it all eleven
commit-type-to-glyph mappings, and for every diff free of the eleven
glyph characters the `useEmoji = false` prompt contains none of the
mappings (the prompt builder is total, so a string is always produced). -/
theorem c9_emoji_prompt (diff : String) :
    (commitEmojiInstruction.data <:+: (CommitMessagePromptTemplate diff true).data ∧
      ∀ m ∈ emojiMappings, m.data <:+: (CommitMessagePromptTemplate diff true).data) ∧
    ((∀ g ∈ glyphChars, g ∉ diff.data) →
      ∀ m ∈ emojiMappings, ¬ (m.data <:+: (CommitMessagePromptTemplate diff false).data)) := by
  have hinstr : commitEmojiInstruction.data <:+: (CommitMessagePromptTemplate diff true).data := by
    have hshape : (CommitMessagePromptTemplate diff true).data =
        commitPromptHeader.data ++ commitEmojiInstruction.data
          ++ (commitPromptMid.data ++ diff.data ++ commitPromptFooter.data) := by
      simp [CommitMessagePromptTemplate, string_data_append, List.append_assoc]
    rw [hshape]
    exact infix_middle _ _ _
  refine ⟨⟨hinstr, ?_⟩, ?_⟩
  · have hin : ∀ m ∈ emojiMappings, m.data <:+: commitEmojiInstruction.data := by decide
    intro m hm
    exact (hin m hm).trans hinstr
  · intro hglyph m hm hinf
    have hfact : ∀ m ∈ emojiMappings, ∃ g ∈ glyphChars, g ∈ m.data := by decide
    have hstatic : ∀ g ∈ glyphChars, g ∉ commitPromptHeader.data ∧
        g ∉ commitPromptMid.data ∧ g ∉ commitPromptFooter.data := by decide
    obtain ⟨g, hg1, hg2⟩ := hfact m hm
    have hg_prompt : g ∈ (CommitMessagePromptTemplate diff false).data := hinf.subset hg2
    have hshape : (CommitMessagePromptTemplate diff false).data =
        commitPromptHeader.data ++ (commitPromptMid.data
          ++ (diff.data ++ commitPromptFooter.data)) := by
      simp [CommitMessagePromptTemplate, string_data_append, List.append_assoc]
    rw [hshape] at hg_prompt
    rcases List.mem_append.mp hg_prompt with h | h
    · exact (hstatic g hg1).1 h
    rcases List.mem_append.mp h with h | h
    · exact (hstatic g hg1).2.1 h
    rcases List.mem_append.mp h with h | h
    · exact hglyph g hg1 h
    · exact (hstatic g hg1).2.2 h

/-- C9 witness: `c9_emoji_prompt` at a concrete glyph-free diff. -/
theorem c9_emoji_prompt_w :
    (commitEmojiInstruction.data <:+: (CommitMessagePromptTemplate "some diff" true).data ∧
      ∀ m ∈ emojiMappings, m.data <:+: (CommitMessagePromptTemplate "some diff" true).data) ∧
    (∀ m ∈ emojiMappings,
      ¬ (m.data <:+: (CommitMessagePromptTemplate "some diff" false).data)) :=
  ⟨(c9_emoji_prompt "some diff").1, (c9_emoji_prompt "some diff").2 (by decide)⟩

/-- C10: `LoadConfig` never reports an error — its error component is
`none` in every environment, and on each failure mode (unresolvable home
directory, absent config file, unreadable file, unparseable YAML) it
returns the default configuration with a nil error. -/
theorem c10_loadconfig_never_errors (env : ConfigIOEnv) :
    (LoadConfig env).2 = none ∧
    (env.homeDir = none → LoadConfig env = (DefaultConfig, none)) ∧
    (env.fileAbsent = true → LoadConfig env = (DefaultConfig, none)) ∧
    (env.readResult = none → LoadConfig env = (DefaultConfig, none)) ∧
    (∀ data, env.readResult = some data → env.yamlParse data = none →
      LoadConfig env = (DefaultConfig, none)) := by
  rcases env with ⟨hd, fa, rr, yp⟩
  cases hd with
  | none => simp [LoadConfig]
  | some home =>
    cases fa with
    | true => simp [LoadConfig]
    | false =>
      cases rr with
      | none => simp [LoadConfig]
      | some data =>
        cases hyp : yp data with
        | none => simp [LoadConfig, hyp]
        | some cfg => simp [LoadConfig, hyp]

/-- Environment in which `os.UserHomeDir` fails. -/
def envHomeErr : ConfigIOEnv :=
  { homeDir := none, fileAbsent := false, readResult := none, yamlParse := fun _ => none }

/-- Environment with a readable config file whose YAML does not parse. -/
def envBadYaml : ConfigIOEnv :=
  { homeDir := some "/home/u", fileAbsent := false, readResult := some "::bad::",
    yamlParse := fun _ => none }

/-- C10 witness: `c10_loadconfig_never_errors` on two concrete failing
environments. -/
theorem c10_loadconfig_never_errors_w :
    LoadConfig envHomeErr = (DefaultConfig, none) ∧
    LoadConfig envBadYaml = (DefaultConfig, none) :=
  ⟨(c10_loadconfig_never_errors envHomeErr).2.1 rfl,
   (c10_loadconfig_never_errors envBadYaml).2.2.2.2 "::bad::" rfl rfl⟩

/-- C8: `parsePRResponse` on the three concrete inputs of the claim:
the well-formed input parses to title `"Add X"` and body
`"Line1\nLine2"`; the input with only a body fails with the
missing-title error; the input with only a title fails with the
missing-body error. -/
theorem c8_concrete_examples :
    parsePRResponse "TITLE: Add X\n\nBODY:\nLine1\nLine2" =
      Except.ok ("Add X", "Line1\nLine2") ∧
    parsePRResponse "BODY:\nonly body" = Except.error "no title found in LLM response" ∧
    parsePRResponse "TITLE: only title" = Except.error "no body found in LLM response" :=
  ⟨rfl, rfl, rfl⟩

end Institutionalized
